import Mathlib

/-!
Verification of the GlobalKeyListener native bridge.

The repository consists of two platform source files,
`src/native/linux/keyboard_hook.cpp` (X11 polling adapter) and
`src/help/backup/keyboard_hook_win.cpp` (Windows low-level hook adapter).
Both share the same architecture: a capture site produces `KeyEventData`
records and pushes them into a bounded lock-free queue
(`boost::lockfree::queue<KeyEventData> eventQueue(1024)`); a dispatch thread
drains the queue and forwards each record across the JNI boundary via
`dispatchFromNative(int, int, bool, bool, bool)`; a process-wide
`std::atomic<int> droppedEvents` counts events dropped on a full queue and a
process-wide `std::atomic<bool> running(true)` flag governs the loops.

This file embeds those pieces as executable Lean definitions and proves the
spec's claims about them.
-/

namespace GlobalKey

/-- Modelled from the spec: the Bounded Event Channel is
`boost::lockfree::queue<KeyEventData> eventQueue(1024)`, an external library
type whose implementation is not part of this repository.  The spec's channel
contract (section 4.2) is: capacity is fixed at construction and never resized;
`push` enqueues at the tail and returns true when the channel is below
capacity, returns false (leaving the channel unchanged) when it is at
capacity; `pop` dequeues the oldest record, or returns empty on an empty
channel; FIFO order for a single producer. -/
structure Channel (α : Type) where
  capacity : Nat
  buffer : List α
deriving DecidableEq, Repr

/-- Non-blocking push of the channel contract: succeed and append when below
capacity, fail and leave the channel unchanged when full. -/
def Channel.push {α : Type} (c : Channel α) (d : α) : Bool × Channel α :=
  if c.buffer.length < c.capacity then (true, { c with buffer := c.buffer ++ [d] })
  else (false, c)

/-- Non-blocking pop of the channel contract: dequeue the oldest record, or
report emptiness without changing anything. -/
def Channel.pop {α : Type} (c : Channel α) : Option α × Channel α :=
  match c.buffer with
  | [] => (none, c)
  | d :: rest => (some d, { c with buffer := rest })

/-- A freshly constructed channel of the given capacity, as produced by
`eventQueue(cap)`. -/
def Channel.empty (α : Type) (cap : Nat) : Channel α :=
  { capacity := cap, buffer := [] }

/-- The process-wide mutable state shared by the capture and dispatch threads:
the event queue, the `droppedEvents` counter (modelled as the number of
increments performed on the `std::atomic<int>` since module initialisation),
and the log of counter values observed by successive
`getDroppedEventsNative` reads. -/
structure HookState (α : Type) where
  eventQueue : Channel α
  droppedEvents : Nat
  reads : List Nat
deriving DecidableEq, Repr

/-- Two's-complement reading of the counter as the `jint` that
`getDroppedEventsNative` returns: the number of increments reduced modulo
2 ^ 32 and interpreted as a signed 32-bit value. -/
def toInt32 (n : Nat) : Int :=
  if n % 2 ^ 32 < 2 ^ 31 then ((n % 2 ^ 32 : Nat) : Int)
  else ((n % 2 ^ 32 : Nat) : Int) - 2 ^ 32

/-- Value returned by `Java_com_example_globalkey_NativeKeyboardHook_getDroppedEventsNative`:
`return droppedEvents.load();` as a `jint`. -/
def readCount {α : Type} (s : HookState α) : Int :=
  toInt32 s.droppedEvents

/-- One key event arriving at a capture site.  Both platforms use the same
statement (`captureKeys` on Linux, `KeyboardProc` on Windows):
`if (!eventQueue.push(data)) { droppedEvents++; }` — attempt a non-blocking
push and increment the drop counter exactly when the push failed.  Returns the
push result together with the resulting state. -/
def captureEvent {α : Type} (s : HookState α) (d : α) : Bool × HookState α :=
  match s.eventQueue.push d with
  | (true, q) => (true, { s with eventQueue := q })
  | (false, _) => (false, { s with droppedEvents := s.droppedEvents + 1 })

/-- A single producer presenting a list of records at the capture site, one
after the other; collects the per-push results. -/
def captureList {α : Type} (s : HookState α) : List α → List Bool × HookState α
  | [] => ([], s)
  | d :: ds =>
    let r := captureEvent s d
    let rest := captureList r.2 ds
    (r.1 :: rest.1, rest.2)

/-- The operations the threads of the process perform on the shared state:
a capture-site push (with its drop accounting), a dispatch-side pop, and a
`getDroppedEventsNative` read (logged). -/
inductive Op (α : Type) where
  | push (d : α)
  | pop
  | read
deriving DecidableEq, Repr

/-- Effect of one operation on the shared state. -/
def applyOp {α : Type} (s : HookState α) : Op α → HookState α
  | .push d => (captureEvent s d).2
  | .pop => { s with eventQueue := (s.eventQueue.pop).2 }
  | .read => { s with reads := s.reads ++ [s.droppedEvents] }

/-- Effect of a sequence of operations. -/
def applyOps {α : Type} (s : HookState α) (ops : List (Op α)) : HookState α :=
  ops.foldl applyOp s

/-- State at module initialisation: a fresh queue (the source constructs
`eventQueue(1024)`), `droppedEvents = 0`, no reads performed yet. -/
def initState (α : Type) (cap : Nat) : HookState α :=
  { eventQueue := Channel.empty α cap, droppedEvents := 0, reads := [] }

/-- Pop the channel `n` times, collecting the successfully dequeued records in
order. -/
def popN {α : Type} : Nat → Channel α → List α × Channel α
  | 0, c => ([], c)
  | n + 1, c =>
    match c.pop with
    | (none, c1) => ([], c1)
    | (some d, c1) =>
      let rest := popN n c1
      (d :: rest.1, rest.2)

theorem captureEvent_success {α : Type} (cap : Nat) (buf : List α) (dr : Nat)
    (rs : List Nat) (d : α) (h : buf.length < cap) :
    captureEvent (⟨⟨cap, buf⟩, dr, rs⟩ : HookState α) d
      = (true, ⟨⟨cap, buf ++ [d]⟩, dr, rs⟩) := by
  simp [captureEvent, Channel.push, h]

theorem captureEvent_full {α : Type} (cap : Nat) (buf : List α) (dr : Nat)
    (rs : List Nat) (d : α) (h : cap ≤ buf.length) :
    captureEvent (⟨⟨cap, buf⟩, dr, rs⟩ : HookState α) d
      = (false, ⟨⟨cap, buf⟩, dr + 1, rs⟩) := by
  have h2 : ¬ buf.length < cap := Nat.not_lt.mpr h
  simp [captureEvent, Channel.push, h2]

theorem captureList_room {α : Type} (L : List α) (cap : Nat) (buf : List α)
    (dr : Nat) (rs : List Nat) (h : buf.length + L.length ≤ cap) :
    captureList (⟨⟨cap, buf⟩, dr, rs⟩ : HookState α) L
      = (List.replicate L.length true, ⟨⟨cap, buf ++ L⟩, dr, rs⟩) := by
  induction L generalizing buf with
  | nil => simp [captureList]
  | cons d ds ih =>
    have hlt : buf.length < cap := by
      simp only [List.length_cons] at h
      omega
    rw [captureList, captureEvent_success cap buf dr rs d hlt]
    have hrec := ih (buf ++ [d]) (by simp only [List.length_append,
      List.length_singleton, List.length_cons, List.length_nil] at h ⊢; omega)
    simp [hrec, List.replicate_succ]

theorem captureList_full {α : Type} (n : Nat) (d : α) (cap : Nat)
    (buf : List α) (dr : Nat) (rs : List Nat) (h : cap ≤ buf.length) :
    captureList (⟨⟨cap, buf⟩, dr, rs⟩ : HookState α) (List.replicate n d)
      = (List.replicate n false, ⟨⟨cap, buf⟩, dr + n, rs⟩) := by
  induction n generalizing dr with
  | zero => simp [captureList]
  | succ k ih =>
    rw [List.replicate_succ, captureList, captureEvent_full cap buf dr rs d h]
    have hrec := ih (dr + 1)
    have harith : dr + 1 + k = dr + (k + 1) := by omega
    simp [hrec, harith, List.replicate_succ]

theorem popN_all {α : Type} (cap : Nat) (L : List α) :
    popN L.length (⟨cap, L⟩ : Channel α) = (L, ⟨cap, []⟩) := by
  induction L with
  | nil => rfl
  | cons d rest ih =>
    simp only [List.length_cons]
    rw [popN]
    simp [Channel.pop, ih]

theorem applyOps_pushes {α : Type} (L : List α) (s : HookState α) :
    applyOps s (L.map Op.push) = (captureList s L).2 := by
  induction L generalizing s with
  | nil => rfl
  | cons d ds ih =>
    rw [List.map_cons, applyOps, List.foldl_cons]
    rw [captureList]
    exact ih (captureEvent s d).2

theorem applyOps_append {α : Type} (s : HookState α) (l1 l2 : List (Op α)) :
    applyOps s (l1 ++ l2) = applyOps (applyOps s l1) l2 :=
  List.foldl_append _ _ _ _

/-- A cross-runtime forwarding call
`dispatchFromNative(keyCode, eventType, shift, ctrl, alt)` with signature
`(IIZZZ)V`, as issued by `env->CallStaticVoidMethod` in `dispatchEvents`. -/
structure ForwardCall where
  keyCode : Int
  eventType : Int
  shift : Bool
  ctrl : Bool
  alt : Bool
deriving DecidableEq, Repr

/-- JNI startup environment observed by `dispatchEvents`: whether
`AttachCurrentThread` succeeds, whether
`FindClass("com/example/globalkey/NativeKeyboardBridge")` returns a class, and
whether `GetStaticMethodID(cls, "dispatchFromNative", "(IIZZZ)V")` resolves. -/
structure JniStartup where
  attachOk : Bool
  classFound : Bool
  methodFound : Bool
deriving DecidableEq, Repr

namespace Linux

/-- The `KeyEventData` struct of `src/native/linux/keyboard_hook.cpp`:
`int keycode; jint eventType;` with `0 = press, 1 = release`. -/
structure KeyEventData where
  keycode : Int
  eventType : Int
deriving DecidableEq, Repr

/-- X11 protocol constant: the event type of a key-press notification. -/
def xKeyPress : Nat := 2

/-- X11 protocol constant: the event type of a key-release notification. -/
def xKeyRelease : Nat := 3

/-- The record `captureKeys` constructs for an XEvent whose type is KeyPress
or KeyRelease: `data.keycode = ev.xkey.keycode;
data.eventType = (ev.type == KeyRelease) ? 1 : 0;`. -/
def captureKeysEvent (evType : Nat) (keycode : Int) : KeyEventData :=
  { keycode := keycode
    eventType := if evType = xKeyRelease then 1 else 0 }

/-- Outcome of the prologue of the Linux `captureKeys` thread (lines 27-34):
`display = XOpenDisplay(nullptr); if (!display) { report; return; }` happens
before `XSelectInput` registers interest in key events and before the polling
loop is entered. -/
structure CaptureStart where
  reportedFailure : Bool
  inputSelected : Bool
  enteredLoop : Bool
deriving DecidableEq, Repr

/-- Prologue of `captureKeys` as a function of whether the X display could be
opened. -/
def captureKeysStart (displayOk : Bool) : CaptureStart :=
  if displayOk then
    { reportedFailure := false, inputSelected := true, enteredLoop := true }
  else
    { reportedFailure := true, inputSelected := false, enteredLoop := false }

/-- The call the Linux dispatch loop makes for each popped record:
`env->CallStaticVoidMethod(cls, method, data.keycode, data.eventType, false,
false, false);` — the three modifier arguments are the literal `false`. -/
def dispatchCall (d : KeyEventData) : ForwardCall :=
  { keyCode := d.keycode
    eventType := d.eventType
    shift := false
    ctrl := false
    alt := false }

/-- The inner drain loop `while (eventQueue.pop(data)) { ... }` of the Linux
`dispatchEvents`, expressed over the queue contents that the successive pops
dequeue (each pop removes the head of the buffer): one forwarding call per
popped record, in pop order. -/
def drainCalls : List KeyEventData → List ForwardCall
  | [] => []
  | d :: rest => dispatchCall d :: drainCalls rest

/-- Outcome of `dispatchEvents` up to (and including one pass of, when it is
reached) its outer loop. -/
structure DispatchStart where
  enteredLoop : Bool
  calls : List ForwardCall
  queue : Channel KeyEventData
deriving DecidableEq, Repr

/-- The Linux `dispatchEvents` (lines 55-69): it returns before its
`while (running.load())` loop if `AttachCurrentThread` fails, if `FindClass`
returns null, or if `GetStaticMethodID` returns null; otherwise it enters the
loop, whose body drains the queue and forwards each record. -/
def dispatchEventsStart (j : JniStartup) (c : Channel KeyEventData) : DispatchStart :=
  if !j.attachOk then { enteredLoop := false, calls := [], queue := c }
  else if !j.classFound then { enteredLoop := false, calls := [], queue := c }
  else if !j.methodFound then { enteredLoop := false, calls := [], queue := c }
  else { enteredLoop := true, calls := drainCalls c.buffer, queue := { c with buffer := [] } }

/-- Threads detached by the Linux
`Java_com_example_globalkey_NativeKeyboardHook_startHook` (lines 72-79):
`std::thread(captureKeys).detach(); std::thread(dispatchEvents).detach();` —
both are started unconditionally; no failure check occurs on this path. -/
structure StartResult where
  captureThreadStarted : Bool
  dispatchThreadStarted : Bool
deriving DecidableEq, Repr

/-- The Linux `startHook` entry point. -/
def startHook : StartResult :=
  { captureThreadStarted := true, dispatchThreadStarted := true }

end Linux

namespace Win

/-- The `KeyEventData` struct of `src/help/backup/keyboard_hook_win.cpp`:
`DWORD vkCode; jint eventType; jboolean shift; jboolean ctrl; jboolean alt;`. -/
structure KeyEventData where
  vkCode : Nat
  eventType : Int
  shift : Bool
  ctrl : Bool
  alt : Bool
deriving DecidableEq, Repr

/-- Windows message constant `WM_KEYDOWN` (0x0100). -/
def WM_KEYDOWN : Nat := 0x0100

/-- Windows message constant `WM_KEYUP` (0x0101). -/
def WM_KEYUP : Nat := 0x0101

/-- Windows message constant `WM_SYSKEYDOWN` (0x0104). -/
def WM_SYSKEYDOWN : Nat := 0x0104

/-- Windows message constant `WM_SYSKEYUP` (0x0105). -/
def WM_SYSKEYUP : Nat := 0x0105

/-- The keyboard messages a WH_KEYBOARD_LL hook receives as `wParam`,
per the documented contract of `LowLevelKeyboardProc`. -/
def llHookMessages : List Nat := [WM_KEYDOWN, WM_KEYUP, WM_SYSKEYDOWN, WM_SYSKEYUP]

/-- Which of those notifications report a key-up transition: the OS posts
`WM_KEYUP` and `WM_SYSKEYUP` on key release (`WM_SYSKEYUP` when the ALT key is
involved), `WM_KEYDOWN` and `WM_SYSKEYDOWN` on key press. -/
def reportsKeyUp (wParam : Nat) : Bool :=
  wParam == WM_KEYUP || wParam == WM_SYSKEYUP

/-- High-bit samples of `GetAsyncKeyState` for VK_SHIFT, VK_CONTROL and
VK_MENU taken inside `KeyboardProc`. -/
structure ModifierSample where
  shift : Bool
  ctrl : Bool
  alt : Bool
deriving DecidableEq, Repr

/-- The record `KeyboardProc` constructs (lines 42-52) when `nCode ==
HC_ACTION`: `event.vkCode = keyInfo->vkCode;
event.eventType = (wParam == WM_KEYUP) ? 1 : 0;` plus the three sampled
modifier bits. -/
def keyboardProcEvent (wParam : Nat) (vkCode : Nat) (m : ModifierSample) : KeyEventData :=
  { vkCode := vkCode
    eventType := if wParam = WM_KEYUP then 1 else 0
    shift := m.shift
    ctrl := m.ctrl
    alt := m.alt }

/-- The call the Windows dispatch loop makes for each popped record:
`env->CallStaticVoidMethod(cls, method, data.vkCode, data.eventType,
data.shift, data.ctrl, data.alt);`. -/
def dispatchCall (d : KeyEventData) : ForwardCall :=
  { keyCode := (d.vkCode : Int)
    eventType := d.eventType
    shift := d.shift
    ctrl := d.ctrl
    alt := d.alt }

/-- The inner drain loop `while (eventQueue.pop(data)) { ... }` of the Windows
`dispatchEvents`, over the queue contents the successive pops dequeue. -/
def drainCalls : List KeyEventData → List ForwardCall
  | [] => []
  | d :: rest => dispatchCall d :: drainCalls rest

/-- Outcome of the Windows `dispatchEvents` up to (and including one pass of,
when it is reached) its outer loop. -/
structure DispatchStart where
  enteredLoop : Bool
  calls : List ForwardCall
  queue : Channel KeyEventData
deriving DecidableEq, Repr

/-- The Windows `dispatchEvents` (lines 25-39): the result of
`AttachCurrentThread` is ignored; the function returns before its
`while (running.load())` loop if `FindClass` or `GetStaticMethodID` returns
NULL; otherwise it enters the loop, whose body drains the queue. -/
def dispatchEventsStart (j : JniStartup) (c : Channel KeyEventData) : DispatchStart :=
  if !j.classFound then { enteredLoop := false, calls := [], queue := c }
  else if !j.methodFound then { enteredLoop := false, calls := [], queue := c }
  else { enteredLoop := true, calls := drainCalls c.buffer, queue := { c with buffer := [] } }

/-- Outcome of the Windows
`Java_com_example_globalkey_NativeKeyboardHook_startHook` (lines 60-92) as a
function of whether `SetWindowsHookEx(WH_KEYBOARD_LL, ...)` succeeded: on
`hHook == NULL` it prints the error and returns before
`std::thread(dispatchEvents).detach()` and before the message pump; otherwise
it starts the dispatch thread and enters the pump. -/
structure StartResult where
  hookInstalled : Bool
  reportedFailure : Bool
  dispatchThreadStarted : Bool
  pumpEntered : Bool
deriving DecidableEq, Repr

/-- The Windows `startHook` entry point. -/
def startHook (hookOk : Bool) : StartResult :=
  if hookOk then
    { hookInstalled := true, reportedFailure := false
      dispatchThreadStarted := true, pumpEntered := true }
  else
    { hookInstalled := false, reportedFailure := true
      dispatchThreadStarted := false, pumpEntered := false }

/-- Control location of the Windows `startHook` thread once the hook is
installed and the dispatch thread detached: at the head of the message pump
(`while (running.load()) { PeekMessage...; Sleep(1); }`), at the statements
after the loop (`UnhookWindowsHookEx(hHook); running.store(false);`), or
done. -/
inductive PumpPC where
  | pumpLoop
  | afterLoop
  | done
deriving DecidableEq, Repr

/-- Lifecycle-relevant state of the process: the `std::atomic<bool> running`
flag together with the pump's control location.  The pump body
(PeekMessage/TranslateMessage/DispatchMessage/Sleep, including any nested run
of `KeyboardProc`) reads but never writes `running`; neither do `captureKeys`,
`dispatchEvents` or `getDroppedEventsNative` on either platform.  The single
occurrence of `running.store(false)` in the two source files is the statement
after the Windows pump loop; the Linux file contains no store to `running` at
all. -/
structure LifecycleState where
  running : Bool
  pc : PumpPC
deriving DecidableEq, Repr

/-- One step of the pump control flow: at the loop head, test `running` and
either execute the body (which leaves the lifecycle state unchanged) or fall
through; after the loop, unhook and execute `running.store(false)`. -/
def pumpStep (s : LifecycleState) : LifecycleState :=
  match s.pc with
  | .pumpLoop => if s.running then s else { s with pc := .afterLoop }
  | .afterLoop => { running := false, pc := .done }
  | .done => s

/-- Lifecycle state when the pump is first entered:
`std::atomic<bool> running(true)` at module initialisation, control at the
loop head. -/
def pumpInit : LifecycleState :=
  { running := true, pc := .pumpLoop }

end Win

theorem captureList_append {α : Type} (L1 L2 : List α) (s : HookState α) :
    captureList s (L1 ++ L2) =
      ((captureList s L1).1 ++ (captureList (captureList s L1).2 L2).1,
        (captureList (captureList s L1).2 L2).2) := by
  induction L1 generalizing s with
  | nil => simp [captureList]
  | cons d ds ih => simp [captureList, ih]

/-- C1: records pushed by a single producer into a freshly constructed channel
that can hold them are all accepted, and popping as many times afterwards
yields exactly those records in push order (per-producer FIFO). -/
theorem push_order_preserved {α : Type} (cap : Nat) (L : List α)
    (h : L.length ≤ cap) :
    (captureList (initState α cap) L).1 = List.replicate L.length true ∧
      (popN L.length ((captureList (initState α cap) L).2).eventQueue).1 = L := by
  have hc := captureList_room (α := α) L cap [] 0 [] (by simpa using h)
  have hinit : initState α cap = (⟨⟨cap, []⟩, 0, []⟩ : HookState α) := rfl
  rw [hinit, hc]
  exact ⟨rfl, by simpa using congrArg Prod.fst (popN_all cap L)⟩

/-- Witness for `push_order_preserved`: the three records of the spec's
end-to-end scenario, pushed into the capacity-1024 channel of the source. -/
theorem push_order_preserved_witness :
    ([⟨65, 0⟩, ⟨65, 1⟩, ⟨13, 0⟩] : List Linux.KeyEventData).length ≤ 1024 ∧
      (popN ([⟨65, 0⟩, ⟨65, 1⟩, ⟨13, 0⟩] : List Linux.KeyEventData).length
          ((captureList (initState Linux.KeyEventData 1024)
            ([⟨65, 0⟩, ⟨65, 1⟩, ⟨13, 0⟩] : List Linux.KeyEventData)).2).eventQueue).1
        = ([⟨65, 0⟩, ⟨65, 1⟩, ⟨13, 0⟩] : List Linux.KeyEventData) :=
  ⟨by decide,
    (push_order_preserved 1024 ([⟨65, 0⟩, ⟨65, 1⟩, ⟨13, 0⟩] : List Linux.KeyEventData)
      (by decide)).2⟩

/-- C2: pushing `N + 1` records into a fresh channel of capacity `N` with no
intervening pops makes exactly the first `N` pushes succeed and the last one
fail, increments the drop counter by exactly one, leaves the first `N` records
poppable in order, and no push or pop ever changes the capacity fixed at
construction. -/
theorem capacity_bound {α : Type} (N : Nat) (L : List α) (h : L.length = N + 1) :
    (captureList (initState α N) L).1 = List.replicate N true ++ [false] ∧
      ((captureList (initState α N) L).2).droppedEvents = 1 ∧
      (popN N ((captureList (initState α N) L).2).eventQueue).1 = L.take N ∧
      (∀ (c : Channel α) (d : α),
        ((c.push d).2).capacity = c.capacity ∧ (c.pop.2).capacity = c.capacity) := by
  obtain ⟨d0, hd0⟩ : ∃ a, L.drop N = [a] := by
    rw [← List.length_eq_one, List.length_drop, h]
    omega
  have htk : (L.take N).length = N := by
    rw [List.length_take, h]
    omega
  have hsplit : L = L.take N ++ [d0] := by
    conv_lhs => rw [← List.take_append_drop N L]
    rw [hd0]
  have hinit : initState α N = (⟨⟨N, []⟩, 0, []⟩ : HookState α) := rfl
  have h1 := captureList_room (α := α) (L.take N) N [] 0 [] (by simp [htk])
  rw [htk] at h1
  have h2 := captureList_full (α := α) 1 d0 N (L.take N) 0 [] (by rw [htk])
  rw [List.replicate_one, List.replicate_one] at h2
  have htake : (L.take N ++ [d0]).take N = L.take N := List.take_left' htk
  rw [hsplit, hinit, captureList_append, h1]
  simp only [List.nil_append] at h2 ⊢
  rw [h2, htake]
  refine ⟨rfl, rfl, ?_, fun c d => ⟨?_, ?_⟩⟩
  · have := popN_all N (L.take N)
    rw [htk] at this
    simp [this]
  · unfold Channel.push
    split <;> rfl
  · unfold Channel.pop
    split <;> rfl

/-- Witness for `capacity_bound`: the spec's overflow scenario — capacity 2,
three records pushed, pushes 1 and 2 succeed, push 3 fails, one drop counted. -/
theorem capacity_bound_witness :
    ([⟨65, 0⟩, ⟨65, 1⟩, ⟨13, 0⟩] : List Linux.KeyEventData).length = 2 + 1 ∧
      (captureList (initState Linux.KeyEventData 2)
          ([⟨65, 0⟩, ⟨65, 1⟩, ⟨13, 0⟩] : List Linux.KeyEventData)).1
          = List.replicate 2 true ++ [false] ∧
      ((captureList (initState Linux.KeyEventData 2)
          ([⟨65, 0⟩, ⟨65, 1⟩, ⟨13, 0⟩] : List Linux.KeyEventData)).2).droppedEvents
          = 1 :=
  ⟨rfl,
    (capacity_bound 2 ([⟨65, 0⟩, ⟨65, 1⟩, ⟨13, 0⟩] : List Linux.KeyEventData) rfl).1,
    (capacity_bound 2 ([⟨65, 0⟩, ⟨65, 1⟩, ⟨13, 0⟩] : List Linux.KeyEventData) rfl).2.1⟩

/-- C3: a capture-site push that fails increments the drop counter exactly
once, a capture-site push that succeeds leaves it unchanged, and neither a pop
nor a counter read changes it — so no record is dropped without being
counted. -/
theorem failed_push_counts_drop {α : Type} (s : HookState α) (o : Op α) :
    (applyOp s o).droppedEvents =
      match o with
      | Op.push d =>
        if (s.eventQueue.push d).1 then s.droppedEvents else s.droppedEvents + 1
      | Op.pop => s.droppedEvents
      | Op.read => s.droppedEvents := by
  cases o with
  | push d =>
    simp only [applyOp, captureEvent]
    rcases hp : s.eventQueue.push d with ⟨ok, q⟩
    cases ok <;> simp
  | pop => rfl
  | read => rfl

/-- C4 (code behaviour): `running` is initialised to true, but the pump never
leaves its loop: every iterate of `Win.pumpStep` from `Win.pumpInit` is
`Win.pumpInit` itself.  The true-to-false transition of `running` claimed for
shutdown is therefore unreachable — the only `running.store(false)` in the two
source files stands after a loop that exits only once `running` is already
false, and the Linux file never stores to `running` at all. -/
theorem running_never_cleared :
    Win.pumpInit.running = true ∧
      ∀ n : Nat, Win.pumpStep^[n] Win.pumpInit = Win.pumpInit := by
  refine ⟨rfl, fun n => ?_⟩
  induction n with
  | zero => rfl
  | succ k ih => rw [Function.iterate_succ_apply', ih]; rfl

/-- C5 (code behaviour at the failing input): `WM_SYSKEYUP` is one of the four
notifications a WH_KEYBOARD_LL hook receives and it reports a key-up
transition, yet the record `KeyboardProc` constructs for it carries
eventType 0 (Press), because the source compares `wParam` with `WM_KEYUP`
only.  The Linux adapter, whose accepted notifications are exactly KeyPress
and KeyRelease, maps the transition correctly. -/
theorem syskeyup_recorded_as_press :
    Win.WM_SYSKEYUP ∈ Win.llHookMessages ∧
      Win.reportsKeyUp Win.WM_SYSKEYUP = true ∧
      (Win.keyboardProcEvent Win.WM_SYSKEYUP 65 ⟨false, false, true⟩).eventType = 0 ∧
      (Linux.captureKeysEvent Linux.xKeyRelease 38).eventType = 1 ∧
      (Linux.captureKeysEvent Linux.xKeyPress 38).eventType = 0 := by
  refine ⟨by decide, by decide, ?_, ?_, ?_⟩ <;> decide

/-- C6 counterexample: with the X display connection failing, the Linux
capture thread reports failure, yet the Dispatch Loop has been started all the
same — `startHook` detaches the dispatch thread unconditionally, before the
capture thread can discover the failure. -/
theorem dispatch_started_despite_display_failure :
    (Linux.captureKeysStart false).reportedFailure = true ∧
      Linux.startHook.dispatchThreadStarted = true := by
  exact ⟨rfl, rfl⟩

/-- C6 (amended): on Windows a failed hook installation reports failure,
starts no dispatch thread and enters no pump; on Linux a failed display open
reports failure, registers no input interest and enters no capture loop — but
the dispatch thread has already been started unconditionally by `startHook`. -/
theorem registration_failure_behaviour :
    (Win.startHook false).reportedFailure = true ∧
      (Win.startHook false).dispatchThreadStarted = false ∧
      (Win.startHook false).pumpEntered = false ∧
      (Linux.captureKeysStart false).reportedFailure = true ∧
      (Linux.captureKeysStart false).inputSelected = false ∧
      (Linux.captureKeysStart false).enteredLoop = false ∧
      Linux.startHook.dispatchThreadStarted = true := by
  exact ⟨rfl, rfl, rfl, rfl, rfl, rfl, rfl⟩

/-- C7: every forwarding call made by the Linux dispatch loop — the polling
event-loop platform, which does not sample modifier state — carries all three
modifier flags false. -/
theorem linux_dispatch_modifiers_false (buf : List Linux.KeyEventData)
    (call : ForwardCall) (h : call ∈ Linux.drainCalls buf) :
    call.shift = false ∧ call.ctrl = false ∧ call.alt = false := by
  induction buf with
  | nil => simp [Linux.drainCalls] at h
  | cons d rest ih =>
    rw [Linux.drainCalls] at h
    rcases List.mem_cons.mp h with h1 | h1
    · subst h1
      exact ⟨rfl, rfl, rfl⟩
    · exact ih h1

/-- Witness for `linux_dispatch_modifiers_false` on a one-record queue. -/
theorem linux_dispatch_modifiers_false_witness :
    Linux.dispatchCall ⟨65, 0⟩ ∈ Linux.drainCalls [⟨65, 0⟩] ∧
      (Linux.dispatchCall ⟨65, 0⟩).shift = false :=
  ⟨by decide,
    (linux_dispatch_modifiers_false [⟨65, 0⟩] (Linux.dispatchCall ⟨65, 0⟩) (by decide)).1⟩

/-- C8: if the forwarding capability cannot be resolved at dispatch startup —
the bridge class or the `dispatchFromNative` method id is missing — then on
either platform `dispatchEvents` performs no forwarding call, never enters its
drain loop, and leaves the channel untouched. -/
theorem resolution_failure_no_dispatch (j : JniStartup)
    (h : j.classFound = false ∨ j.methodFound = false) :
    (∀ c : Channel Linux.KeyEventData,
        (Linux.dispatchEventsStart j c).enteredLoop = false ∧
          (Linux.dispatchEventsStart j c).calls = [] ∧
          (Linux.dispatchEventsStart j c).queue = c) ∧
      (∀ c : Channel Win.KeyEventData,
        (Win.dispatchEventsStart j c).enteredLoop = false ∧
          (Win.dispatchEventsStart j c).calls = [] ∧
          (Win.dispatchEventsStart j c).queue = c) := by
  obtain ⟨a, cf, mf⟩ := j
  refine ⟨fun c => ?_, fun c => ?_⟩ <;>
    cases a <;> cases cf <;> cases mf <;>
      simp_all [Linux.dispatchEventsStart, Win.dispatchEventsStart]

/-- Witness for `resolution_failure_no_dispatch`: class lookup fails on the
source's capacity-1024 channel. -/
theorem resolution_failure_no_dispatch_witness :
    ((⟨true, false, true⟩ : JniStartup).classFound = false ∨
        (⟨true, false, true⟩ : JniStartup).methodFound = false) ∧
      (Linux.dispatchEventsStart ⟨true, false, true⟩
          (Channel.empty Linux.KeyEventData 1024)).calls = [] :=
  ⟨Or.inl rfl,
    ((resolution_failure_no_dispatch ⟨true, false, true⟩ (Or.inl rfl)).1
      (Channel.empty Linux.KeyEventData 1024)).2.1⟩

/-- C10: when the channel is empty, pop returns no record and leaves the
whole shared state — channel contents, capacity and drop counter —
unchanged. -/
theorem pop_empty_frame {α : Type} (s : HookState α)
    (h : s.eventQueue.buffer = []) :
    s.eventQueue.pop = (none, s.eventQueue) ∧
      applyOp s Op.pop = s ∧
      (applyOp s Op.pop).droppedEvents = s.droppedEvents := by
  obtain ⟨⟨cap, buf⟩, dr, rs⟩ := s
  have hb : buf = [] := h
  subst hb
  exact ⟨rfl, rfl, rfl⟩

/-- Witness for `pop_empty_frame` at the freshly constructed state. -/
theorem pop_empty_frame_witness :
    (initState Linux.KeyEventData 1024).eventQueue.buffer = [] ∧
      applyOp (initState Linux.KeyEventData 1024) Op.pop
        = initState Linux.KeyEventData 1024 :=
  ⟨rfl, (pop_empty_frame (initState Linux.KeyEventData 1024) rfl).2.1⟩

theorem applyOps_nil {α : Type} (s : HookState α) : applyOps s [] = s := rfl

theorem applyOps_cons {α : Type} (s : HookState α) (o : Op α) (rest : List (Op α)) :
    applyOps s (o :: rest) = applyOps (applyOp s o) rest := rfl

theorem dropped_le_applyOp {α : Type} (s : HookState α) (o : Op α) :
    s.droppedEvents ≤ (applyOp s o).droppedEvents := by
  cases o with
  | push d =>
    simp only [applyOp, captureEvent]
    rcases hp : s.eventQueue.push d with ⟨ok, q⟩
    cases ok <;> simp
  | pop => exact le_refl _
  | read => exact le_refl _

theorem applyOp_reads {α : Type} (s : HookState α) (o : Op α) :
    (applyOp s o).reads =
      match o with
      | Op.read => s.reads ++ [s.droppedEvents]
      | _ => s.reads := by
  cases o with
  | push d =>
    simp only [applyOp, captureEvent]
    rcases hp : s.eventQueue.push d with ⟨ok, q⟩
    cases ok <;> simp
  | pop => rfl
  | read => rfl

theorem reads_chain_invariant {α : Type} (ops : List (Op α)) (s : HookState α)
    (h1 : List.Chain' (· ≤ ·) s.reads)
    (h2 : ∀ r ∈ s.reads, r ≤ s.droppedEvents) :
    List.Chain' (· ≤ ·) (applyOps s ops).reads ∧
      ∀ r ∈ (applyOps s ops).reads, r ≤ (applyOps s ops).droppedEvents := by
  induction ops generalizing s with
  | nil => exact ⟨h1, h2⟩
  | cons o rest ih =>
    rw [applyOps_cons]
    have hd := dropped_le_applyOp s o
    have hr := applyOp_reads s o
    apply ih (applyOp s o)
    · cases o <;> rw [hr] <;> try exact h1
      rw [List.chain'_append]
      refine ⟨h1, List.chain'_singleton _, ?_⟩
      intro x hx y hy
      simp only [List.head?_cons, Option.mem_def, Option.some.injEq] at hy
      subst hy
      have hmem : x ∈ s.reads := by
        obtain ⟨hne, hxeq⟩ := List.mem_getLast?_eq_getLast hx
        rw [hxeq]
        exact List.getLast_mem hne
      exact h2 x hmem
    · cases o with
      | push d =>
        rw [hr]
        exact fun r hrr => le_trans (h2 r hrr) hd
      | pop => exact h2
      | read =>
        rw [hr]
        intro r hrr
        rcases List.mem_append.mp hrr with hm | hm
        · exact le_trans (h2 r hm) hd
        · simp only [List.mem_singleton] at hm
          subst hm
          exact hd

theorem toInt32_of_lt_two_pow (n : Nat) (h : n < 2 ^ 31) : toInt32 n = (n : Int) := by
  have h32 : n % 2 ^ 32 = n := Nat.mod_eq_of_lt (lt_trans h (by norm_num))
  unfold toInt32
  rw [h32, if_pos h]

theorem chain_toInt32_map (l : List Nat) (hb : ∀ r ∈ l, r < 2 ^ 31)
    (hc : List.Chain' (· ≤ ·) l) :
    List.Chain' (· ≤ ·) (l.map toInt32) := by
  induction l with
  | nil => simp
  | cons a t ih =>
    cases t with
    | nil => simp
    | cons b t2 =>
      rw [List.chain'_cons] at hc
      have hab : toInt32 a ≤ toInt32 b := by
        rw [toInt32_of_lt_two_pow a (hb a (by simp)),
          toInt32_of_lt_two_pow b (hb b (by simp))]
        exact_mod_cast hc.1
      have ht := ih (fun r hrr => hb r (List.mem_cons_of_mem a hrr)) hc.2
      rw [List.map_cons] at ht
      rw [List.map_cons, List.map_cons]
      exact List.chain'_cons.mpr ⟨hab, ht⟩

/-- A run that drops 2 ^ 31 events: fill the capacity-1024 channel with a
single producer, then — with the dispatch thread never popping — drop
2 ^ 31 - 1 further events, read the counter, drop one more event, read
again. -/
def overflowOps : List (Op Linux.KeyEventData) :=
  (List.replicate 1024 (⟨65, 0⟩ : Linux.KeyEventData)).map Op.push ++
    ((List.replicate (2 ^ 31 - 1) (⟨65, 0⟩ : Linux.KeyEventData)).map Op.push ++
      (Op.read :: ((List.replicate 1 (⟨65, 0⟩ : Linux.KeyEventData)).map Op.push ++
        [Op.read])))

theorem overflow_reads :
    (applyOps (initState Linux.KeyEventData 1024) overflowOps).reads
      = [2 ^ 31 - 1, 2 ^ 31] := by
  have hinit : initState Linux.KeyEventData 1024
      = (⟨⟨1024, []⟩, 0, []⟩ : HookState Linux.KeyEventData) := rfl
  have hlen : (1024 : Nat) ≤ (List.replicate 1024 (⟨65, 0⟩ : Linux.KeyEventData)).length := by
    rw [List.length_replicate]
  have s1 : applyOps (initState Linux.KeyEventData 1024)
      ((List.replicate 1024 (⟨65, 0⟩ : Linux.KeyEventData)).map Op.push)
      = (⟨⟨1024, List.replicate 1024 ⟨65, 0⟩⟩, 0, []⟩ : HookState Linux.KeyEventData) := by
    rw [applyOps_pushes, hinit]
    rw [captureList_room (α := Linux.KeyEventData)
      (List.replicate 1024 ⟨65, 0⟩) 1024 [] 0 []
      (by rw [List.length_nil, List.length_replicate])]
    rfl
  have s2 : applyOps (⟨⟨1024, List.replicate 1024 ⟨65, 0⟩⟩, 0, []⟩ : HookState Linux.KeyEventData)
      ((List.replicate (2 ^ 31 - 1) (⟨65, 0⟩ : Linux.KeyEventData)).map Op.push)
      = (⟨⟨1024, List.replicate 1024 ⟨65, 0⟩⟩, 2 ^ 31 - 1, []⟩ : HookState Linux.KeyEventData) := by
    rw [applyOps_pushes]
    rw [captureList_full (α := Linux.KeyEventData) (2 ^ 31 - 1) ⟨65, 0⟩ 1024
      (List.replicate 1024 ⟨65, 0⟩) 0 [] hlen]
    rw [Nat.zero_add]
  have s3 : applyOp (⟨⟨1024, List.replicate 1024 ⟨65, 0⟩⟩, 2 ^ 31 - 1, []⟩ :
      HookState Linux.KeyEventData) Op.read
      = (⟨⟨1024, List.replicate 1024 ⟨65, 0⟩⟩, 2 ^ 31 - 1, [2 ^ 31 - 1]⟩ :
        HookState Linux.KeyEventData) := rfl
  have s4 : applyOps (⟨⟨1024, List.replicate 1024 ⟨65, 0⟩⟩, 2 ^ 31 - 1, [2 ^ 31 - 1]⟩ :
      HookState Linux.KeyEventData)
      ((List.replicate 1 (⟨65, 0⟩ : Linux.KeyEventData)).map Op.push)
      = (⟨⟨1024, List.replicate 1024 ⟨65, 0⟩⟩, 2 ^ 31, [2 ^ 31 - 1]⟩ :
        HookState Linux.KeyEventData) := by
    rw [applyOps_pushes]
    rw [captureList_full (α := Linux.KeyEventData) 1 ⟨65, 0⟩ 1024
      (List.replicate 1024 ⟨65, 0⟩) (2 ^ 31 - 1) [2 ^ 31 - 1]
      (by rw [List.length_replicate])]
    have hn : 2 ^ 31 - 1 + 1 = 2 ^ 31 := by norm_num
    rw [hn]
  have s5 : applyOp (⟨⟨1024, List.replicate 1024 ⟨65, 0⟩⟩, 2 ^ 31, [2 ^ 31 - 1]⟩ :
      HookState Linux.KeyEventData) Op.read
      = (⟨⟨1024, List.replicate 1024 ⟨65, 0⟩⟩, 2 ^ 31, [2 ^ 31 - 1, 2 ^ 31]⟩ :
        HookState Linux.KeyEventData) := rfl
  unfold overflowOps
  rw [applyOps_append, s1, applyOps_append, s2, applyOps_cons, s3,
    applyOps_append, s4, applyOps_cons, s5, applyOps_nil]

/-- C9 counterexample: over the run `overflowOps`, which drops 2 ^ 31 events,
the two `getDroppedEventsNative` reads return the jint values 2147483647 and
then -2147483648 — the `std::atomic<int>` counter wraps, and the later read is
smaller than the earlier one. -/
theorem read_count_wraps :
    ((applyOps (initState Linux.KeyEventData 1024) overflowOps).reads).map toInt32
        = [(2147483647 : Int), (-2147483648 : Int)] ∧
      ¬ List.Chain' (· ≤ ·)
          (((applyOps (initState Linux.KeyEventData 1024) overflowOps).reads).map toInt32) := by
  rw [overflow_reads]
  have e1 : toInt32 (2 ^ 31 - 1) = (2147483647 : Int) := by decide
  have e2 : toInt32 (2 ^ 31) = (-2147483648 : Int) := by decide
  rw [List.map_cons, List.map_cons, List.map_nil, e1, e2]
  refine ⟨rfl, fun hch => ?_⟩
  rw [List.chain'_cons] at hch
  exact absurd hch.1 (by decide)

/-- C9 (amended): the count of drop-counter increments is monotonically
non-decreasing under every operation, and as long as the total number of drops
over the process lifetime stays below 2 ^ 31 — so that the `std::atomic<int>`
cannot wrap — the jint values returned by successive `getDroppedEventsNative`
reads never decrease. -/
theorem read_count_monotone {α : Type} (cap : Nat) (ops : List (Op α))
    (h : (applyOps (initState α cap) ops).droppedEvents < 2 ^ 31) :
    (∀ (s : HookState α) (o : Op α), s.droppedEvents ≤ (applyOp s o).droppedEvents) ∧
      List.Chain' (· ≤ ·) ((applyOps (initState α cap) ops).reads.map toInt32) := by
  refine ⟨dropped_le_applyOp, ?_⟩
  have hinv := reads_chain_invariant ops (initState α cap)
    (by simp [initState]) (by simp [initState])
  exact chain_toInt32_map _ (fun r hrr => lt_of_le_of_lt (hinv.2 r hrr) h) hinv.1

/-- Witness for `read_count_monotone`: two immediate reads on the fresh
state. -/
theorem read_count_monotone_witness :
    (applyOps (initState Linux.KeyEventData 1024)
        ([Op.read, Op.read] : List (Op Linux.KeyEventData))).droppedEvents < 2 ^ 31 ∧
      List.Chain' (· ≤ ·)
        ((applyOps (initState Linux.KeyEventData 1024)
          ([Op.read, Op.read] : List (Op Linux.KeyEventData))).reads.map toInt32) :=
  ⟨by decide,
    (read_count_monotone 1024 ([Op.read, Op.read] : List (Op Linux.KeyEventData))
      (by decide)).2⟩

end GlobalKey
